import Mathlib

/-!
# PersonalLLM-DiscordBot: reply pipeline

A shallow embedding of `apicontent.go`, `config.go` and the message handling of `bot.go`
(`onMessageCreate`, `processMessage`, `makeReplyWithThread`, `checkAndReplyToThread`,
`fetchThreadContent`, `makeReplyMessage`, `updateMessageWithAPIResponse`), followed by the
properties of the reply pipeline.

Conventions of the embedding.

* A Go `string` is a sequence of bytes (`GoString`); `len` and slicing count bytes.
* The chat platform session, the HTTP client and `encoding/json` are collaborators outside the
  repository.  Their answers are the fields of `World`; every call the handlers make to the chat
  platform or to the completion endpoint is recorded, in program order, as an `Action`.
* A Go function that returns `error` yields an `Outcome`: a normal return, a returned error
  (tagged with the `return` statement that produced it) or a run-time fault (nil dereference).
* Writes to the log are not modelled.
-/

namespace PersonalLLM

/-! ## Strings -/

/-- A Go string: an immutable sequence of bytes. -/
abbrev GoString := List UInt8

/-- The bytes of a string literal of the (UTF-8 encoded) Go source. -/
def lit (s : String) : GoString := s.data.flatMap String.utf8EncodeChar

/-! ## apicontent.go -/

/-- The Go struct `ApiMessage`. -/
structure ApiMessage where
  Role : GoString
  Content : GoString
  deriving DecidableEq, Repr

/-- The Go function `NewApiMessage`. -/
def NewApiMessage (role content : GoString) : ApiMessage := ⟨role, content⟩

/-- The Go struct `ApiRequest`. -/
structure ApiRequest where
  ModelName : GoString
  Stream : Bool
  Messages : List ApiMessage
  deriving DecidableEq, Repr

/-- The Go function `NewApiRequest`: the pointed-to messages are copied one by one, in order,
into a fresh slice; `Stream` is always `true`. -/
def NewApiRequest (modelName : GoString) (messages : List ApiMessage) : ApiRequest :=
  ⟨modelName, true, messages.map (fun msg => msg)⟩

/-- The anonymous struct of the field `Message` of `ApiResponse`. -/
structure ApiResponseMessage where
  Content : GoString
  deriving DecidableEq, Repr

/-- The Go struct `ApiResponse`. -/
structure ApiResponse where
  Done : Bool
  Message : ApiResponseMessage
  deriving DecidableEq, Repr

/-- The Go function `ApiResponseFromJSON`.  `unmarshal` stands for `json.Unmarshal` into a fresh
`ApiResponse`: `none` when it reports an error, otherwise the decoded value.  When `json.Unmarshal`
reports an error the function returns `nil, err`, whatever was decoded so far. -/
def ApiResponseFromJSON (unmarshal : GoString → Option ApiResponse) (data : GoString) :
    Option ApiResponse :=
  match unmarshal data with
  | none => none
  | some apiResponse => some apiResponse

/-! ## config.go -/

/-- The Go struct `ApiChannelConfig`. -/
structure ApiChannelConfig where
  ApiUrl : GoString
  ApiAuthToken : GoString
  ModelName : GoString
  SystemRoleMessages : List GoString
  ChatChannelId : GoString
  deriving DecidableEq, Repr

/-- The Go struct `Config`. -/
structure Config where
  Token : GoString
  ApiChannelConfig : List ApiChannelConfig
  deriving DecidableEq, Repr

/-- The loop of `FindChannelConfig` over the configured records. -/
def FindChannelConfig.loop (channelId : GoString) :
    List ApiChannelConfig → Option ApiChannelConfig
  | [] => none
  | apiConfig :: rest =>
    if apiConfig.ChatChannelId = channelId then some apiConfig
    else FindChannelConfig.loop channelId rest

/-- The Go method `(*Config).FindChannelConfig`. -/
def Config.FindChannelConfig (c : Config) (channelId : GoString) :
    Option PersonalLLM.ApiChannelConfig :=
  FindChannelConfig.loop channelId c.ApiChannelConfig

/-! ## The chat platform library (discordgo), as far as the handlers use it -/

/-- The library type `MessageType` is an `int`. -/
abbrev MessageType := Nat

/-- The library constant `MessageTypeDefault`. -/
def MessageTypeDefault : MessageType := 0

/-- The library constant `MessageTypeChannelPinnedMessage` (a pin notice). -/
def MessageTypeChannelPinnedMessage : MessageType := 6

/-- The fields of the library struct `User` that the handlers read. -/
structure User where
  ID : GoString
  deriving DecidableEq, Repr

/-- The fields of the library struct `Channel` that the handlers read; `IsThread` is the result
of the library method `IsThread()`. -/
structure Channel where
  ID : GoString
  ParentID : GoString
  LastMessageID : GoString
  IsThread : Bool
  deriving DecidableEq, Repr

/-- The fields of the library struct `Message` that the handlers read.  `Thread` is a pointer
(`*Channel`) that the library leaves `nil` on a message from which no thread was started; the
field `Type` of the library is written `Type_`. -/
structure Message where
  ID : GoString
  ChannelID : GoString
  Content : GoString
  Type_ : MessageType
  Author : User
  Thread : Option Channel
  deriving DecidableEq, Repr

/-! ## Outcomes, actions and the environment -/

/-- The `return` statement that produced a Go error. -/
inductive Err where
  | threadStart
  | fetchThread
  | fetchParent
  | sendTemp
  | toJSON
  | newRequest
  | apiSend
  | editTick
  | streamRead
  deriving DecidableEq, Repr

/-- How a call ends: normally with a value, with a returned Go error, or with a run-time fault
(a nil pointer dereference, which panics). -/
inductive Outcome (α : Type) where
  | ok (a : α)
  | err (e : Err)
  | fault
  deriving DecidableEq, Repr

/-- The three places where `ChannelMessageEdit` is called. -/
inductive EditSite where
  | tick
  | final
  | marker
  deriving DecidableEq, Repr

/-- A call to the chat platform session or to the completion endpoint. -/
inductive Action where
  | Channel (channelID : GoString)
  | ChannelMessages (channelID : GoString) (limit : Nat) (aroundID : GoString)
  | MessageThreadStart (channelID messageID name : GoString) (archiveDuration : Nat)
  | ChannelMessageSend (channelID content : GoString)
  | ChannelMessageEdit (site : EditSite) (channelID messageID content : GoString) (ok : Bool)
  | Do (url : GoString) (authorization : Option GoString) (body : GoString)
  deriving DecidableEq, Repr

/-- What one iteration of the `select` of `updateMessageWithAPIResponse` meets: a pending timer
tick (with the outcome of the edit the tick triggers), or, in the `default` branch, the next
newline-terminated line of the response body. -/
inductive Event where
  | tick (editOk : Bool)
  | line (bytes : GoString)
  deriving DecidableEq, Repr

/-- The answers of the collaborators.  A `none` is a call that returns a non-nil error.
`ChannelMessages id limit around` is the library call with empty `beforeID` and `afterID`.
`Do` answers `client.Do`: `none` when sending fails, otherwise the course of the streaming loop
as a finite list of events, after which the next read of the body fails (end of stream or
transport error). -/
structure World where
  botID : GoString
  config : Config
  Channel : GoString → Option PersonalLLM.Channel
  ChannelMessages : GoString → Nat → GoString → Option (List Message)
  MessageThreadStart : GoString → GoString → GoString → Nat → Option PersonalLLM.Channel
  ChannelMessageSend : GoString → GoString → Option Message
  marshal : ApiRequest → Option GoString
  newRequest : GoString → Bool
  Do : GoString → Option GoString → GoString → Option (List Event)
  unmarshal : GoString → Option ApiResponse
  finalEditOk : Bool
  markerEditOk : Bool

/-- The calls made, in program order, and how the function ended. -/
structure Run (α : Type) where
  actions : List Action
  result : Outcome α
  deriving DecidableEq, Repr

/-- The Go method `(*ApiRequest).toJSON`, which is `json.Marshal`. -/
def ApiRequest.toJSON (w : World) (r : ApiRequest) : Option GoString := w.marshal r

/-! ## bot.go: the streaming reply engine -/

/-- The fixed text the placeholder is overwritten with on a failure. -/
def errorMarker : GoString := lit "ðŸ˜µ An error occurred in the bot"

/-- The fixed text of the placeholder. -/
def placeholderText : GoString := lit "Processing your request..."

/-- How the `for`/`select` loop of `updateMessageWithAPIResponse` ended. -/
structure LoopEnd where
  edits : List Action
  result : Outcome Unit
  buffer : GoString
  unread : List Event
  deriving DecidableEq, Repr

/-- The `for`/`select` loop of `updateMessageWithAPIResponse`; `allContent` is the string
builder. -/
def streamLoop (w : World) (channelID messageID : GoString) :
    GoString → List Event → LoopEnd
  | allContent, [] =>
    -- `reader.ReadBytes` fails: overwrite with the error text (result ignored), return the error
    ⟨[Action.ChannelMessageEdit EditSite.marker channelID messageID errorMarker w.markerEditOk],
      Outcome.err Err.streamRead, allContent, []⟩
  | allContent, Event.tick editOk :: rest =>
    if editOk then
      let e := streamLoop w channelID messageID allContent rest
      ⟨Action.ChannelMessageEdit EditSite.tick channelID messageID allContent true :: e.edits,
        e.result, e.buffer, e.unread⟩
    else
      ⟨[Action.ChannelMessageEdit EditSite.tick channelID messageID allContent false],
        Outcome.err Err.editTick, allContent, rest⟩
  | allContent, Event.line bytes :: rest =>
    match ApiResponseFromJSON w.unmarshal bytes with
    | none => streamLoop w channelID messageID allContent rest
    | some respContent =>
      if respContent.Done then
        ⟨[Action.ChannelMessageEdit EditSite.final channelID messageID
            (allContent ++ respContent.Message.Content) w.finalEditOk],
          Outcome.ok (), allContent ++ respContent.Message.Content, rest⟩
      else
        streamLoop w channelID messageID (allContent ++ respContent.Message.Content) rest

/-- The Go method `updateMessageWithAPIResponse`. -/
def updateMessageWithAPIResponse (w : World)
    (channelID messageID apiUrl apiAuthToken requestBody : GoString) : Run Unit :=
  if w.newRequest apiUrl then
    let authorization : Option GoString :=
      if apiAuthToken ≠ [] then some (lit "Bearer " ++ apiAuthToken) else none
    match w.Do apiUrl authorization requestBody with
    | none =>
      ⟨[Action.Do apiUrl authorization requestBody,
        Action.ChannelMessageEdit EditSite.marker channelID messageID errorMarker w.markerEditOk],
        Outcome.err Err.apiSend⟩
    | some events =>
      let e := streamLoop w channelID messageID [] events
      ⟨Action.Do apiUrl authorization requestBody :: e.edits, e.result⟩
  else
    ⟨[], Outcome.err Err.newRequest⟩

/-- The loop of `makeReplyMessage` over `channelConfig.SystemRoleMessages`: each configured
string is put, as a `system` message, in front of the messages gathered so far. -/
def makeReplyMessage.messages (systemRoleMessages : List GoString) (messages : List ApiMessage) :
    List ApiMessage :=
  systemRoleMessages.foldl (fun messages srm => NewApiMessage (lit "system") srm :: messages)
    messages

/-- The request `makeReplyMessage` builds: the argument of `toJSON`. -/
def makeReplyMessage.request (channelConfig : ApiChannelConfig) (messages : List ApiMessage) :
    ApiRequest :=
  NewApiRequest channelConfig.ModelName
    (makeReplyMessage.messages channelConfig.SystemRoleMessages messages)

/-- The Go method `makeReplyMessage`. -/
def makeReplyMessage (w : World) (channelID : GoString) (channelConfig : ApiChannelConfig)
    (messages : List ApiMessage) : Run Unit :=
  match w.ChannelMessageSend channelID placeholderText with
  | none => ⟨[Action.ChannelMessageSend channelID placeholderText], Outcome.err Err.sendTemp⟩
  | some tempMessage =>
    match (makeReplyMessage.request channelConfig messages).toJSON w with
    | none => ⟨[Action.ChannelMessageSend channelID placeholderText], Outcome.err Err.toJSON⟩
    | some requestBody =>
      let r := updateMessageWithAPIResponse w channelID tempMessage.ID channelConfig.ApiUrl
        channelConfig.ApiAuthToken requestBody
      ⟨Action.ChannelMessageSend channelID placeholderText :: r.actions, r.result⟩

/-! ## bot.go: threads -/

/-- The Go method `makeReplyWithThread`. -/
def makeReplyWithThread (w : World)
    (threadName threadStartChannelId threadTargetMessageId : GoString)
    (apiConfig : ApiChannelConfig) (apiMessages : List ApiMessage) : Run Unit :=
  match w.MessageThreadStart threadStartChannelId threadTargetMessageId threadName 60 with
  | none =>
    ⟨[Action.MessageThreadStart threadStartChannelId threadTargetMessageId threadName 60],
      Outcome.err Err.threadStart⟩
  | some thread =>
    let r := makeReplyMessage w thread.ID apiConfig apiMessages
    ⟨Action.MessageThreadStart threadStartChannelId threadTargetMessageId threadName 60 ::
      r.actions, r.result⟩

/-- The thread title `processMessage` computes: `len` counts bytes and `m.Content[:50]` keeps the
first 50 bytes. -/
def processMessage.threadName (content : GoString) : GoString :=
  if content.length < 50 then content else content.take 50

/-- The Go method `processMessage`; an error of `makeReplyWithThread` is only logged. -/
def processMessage (w : World) (m : Message) (channelConfig : ApiChannelConfig) : Run Unit :=
  let apiMessage := NewApiMessage (lit "user") m.Content
  let r := makeReplyWithThread w (processMessage.threadName m.Content) m.ChannelID m.ID
    channelConfig [apiMessage]
  match r.result with
  | Outcome.fault => ⟨r.actions, Outcome.fault⟩
  | _ => ⟨r.actions, Outcome.ok ()⟩

/-- The first loop of `fetchThreadContent`, over the fetched thread history: every message of
default type is put in front of the messages gathered so far. -/
def fetchThreadContent.threadMessages (botID : GoString) :
    List Message → List ApiMessage → List ApiMessage
  | [], messages => messages
  | tc :: rest, messages =>
    if tc.Type_ = MessageTypeDefault then
      let role := if tc.Author.ID = botID then lit "assistant" else lit "user"
      fetchThreadContent.threadMessages botID rest (NewApiMessage role tc.Content :: messages)
    else
      fetchThreadContent.threadMessages botID rest messages

/-- The second loop of `fetchThreadContent`, over the fetched history of the parent channel.
`pcm.Thread.ID` dereferences the pointer `pcm.Thread`, which faults when it is `nil`. -/
def fetchThreadContent.anchorScan (channelID : GoString) :
    List Message → List ApiMessage → Outcome (List ApiMessage)
  | [], messages => Outcome.ok messages
  | pcm :: rest, messages =>
    match pcm.Thread with
    | none => Outcome.fault
    | some thread =>
      if thread.ID = channelID then
        Outcome.ok (NewApiMessage (lit "user") pcm.Content :: messages)
      else
        fetchThreadContent.anchorScan channelID rest messages

/-- The Go method `fetchThreadContent`.  A failure to fetch the history of the parent channel is
logged and the messages gathered so far are returned. -/
def fetchThreadContent (w : World) (channel : Channel) (parentChannelId : GoString) :
    Run (List ApiMessage) :=
  match w.ChannelMessages channel.ID 100 [] with
  | none => ⟨[Action.ChannelMessages channel.ID 100 []], Outcome.err Err.fetchThread⟩
  | some threadContent =>
    let messages := fetchThreadContent.threadMessages w.botID threadContent []
    match w.Channel parentChannelId with
    | none =>
      ⟨[Action.ChannelMessages channel.ID 100 [], Action.Channel parentChannelId],
        Outcome.err Err.fetchParent⟩
    | some threadParentChannel =>
      match w.ChannelMessages threadParentChannel.ID 15 threadParentChannel.LastMessageID with
      | none =>
        ⟨[Action.ChannelMessages channel.ID 100 [], Action.Channel parentChannelId,
          Action.ChannelMessages threadParentChannel.ID 15 threadParentChannel.LastMessageID],
          Outcome.ok messages⟩
      | some parentChannelMessages =>
        ⟨[Action.ChannelMessages channel.ID 100 [], Action.Channel parentChannelId,
          Action.ChannelMessages threadParentChannel.ID 15 threadParentChannel.LastMessageID],
          fetchThreadContent.anchorScan channel.ID parentChannelMessages messages⟩

/-- The Go method `checkAndReplyToThread`; it returns nothing, an error of `makeReplyMessage` is
only printed. -/
def checkAndReplyToThread (w : World) (m : Message) : Run Unit :=
  match w.Channel m.ChannelID with
  | none => ⟨[Action.Channel m.ChannelID], Outcome.ok ()⟩
  | some channel =>
    if channel.IsThread then
      match w.config.FindChannelConfig channel.ParentID with
      | none => ⟨[Action.Channel m.ChannelID], Outcome.ok ()⟩
      | some channelConfig =>
        let f := fetchThreadContent w channel channel.ParentID
        match f.result with
        | Outcome.fault => ⟨Action.Channel m.ChannelID :: f.actions, Outcome.fault⟩
        | Outcome.err _ => ⟨Action.Channel m.ChannelID :: f.actions, Outcome.ok ()⟩
        | Outcome.ok threadContent =>
          if threadContent.length = 0 then
            ⟨Action.Channel m.ChannelID :: f.actions, Outcome.ok ()⟩
          else
            let r := makeReplyMessage w m.ChannelID channelConfig threadContent
            match r.result with
            | Outcome.fault =>
              ⟨Action.Channel m.ChannelID :: (f.actions ++ r.actions), Outcome.fault⟩
            | _ => ⟨Action.Channel m.ChannelID :: (f.actions ++ r.actions), Outcome.ok ()⟩
    else
      ⟨[Action.Channel m.ChannelID], Outcome.ok ()⟩

/-- The Go method `onMessageCreate`; `w.botID` is `s.State.User.ID`. -/
def onMessageCreate (w : World) (m : Message) : Run Unit :=
  if m.Author.ID = w.botID ∨ m.Type_ ≠ MessageTypeDefault then
    ⟨[], Outcome.ok ()⟩
  else
    match w.config.FindChannelConfig m.ChannelID with
    | some channelConfig => processMessage w m channelConfig
    | none => checkAndReplyToThread w m

/-! ## Observations on the recorded calls -/

/-- Whether a call is a `ChannelMessageEdit` that writes the fixed error text, made at one of
the two error sites. -/
def Action.isMarkerEdit : Action → Bool
  | Action.ChannelMessageEdit EditSite.marker _ _ _ _ => true
  | _ => false

/-- Whether a call is a `ChannelMessageEdit`. -/
def Action.isEdit : Action → Bool
  | Action.ChannelMessageEdit _ _ _ _ _ => true
  | _ => false

/-- Whether a call is the HTTP request to the completion endpoint. -/
def Action.isDo : Action → Bool
  | Action.Do _ _ _ => true
  | _ => false

/-- Whether a call posts a message. -/
def Action.isSend : Action → Bool
  | Action.ChannelMessageSend _ _ => true
  | _ => false

/-- Whether a call starts a thread. -/
def Action.isThreadStart : Action → Bool
  | Action.MessageThreadStart _ _ _ _ => true
  | _ => false

/-- Whether a call fetches a message history. -/
def Action.isChannelMessages : Action → Bool
  | Action.ChannelMessages _ _ _ => true
  | _ => false

/-- Whether a call posts or edits a message, starts a thread or sends the HTTP request, as
opposed to a fetch of metadata or of a history. -/
def Action.isReply (a : Action) : Bool :=
  a.isSend || a.isEdit || a.isDo || a.isThreadStart

/-- The text of the last edit that the chat platform accepted, if there is one. -/
def lastSuccessfulEdit : List Action → Option GoString
  | [] => none
  | a :: rest =>
    match lastSuccessfulEdit rest with
    | some text => some text
    | none =>
      match a with
      | Action.ChannelMessageEdit _ _ _ text true => some text
      | _ => none

/-- The role and content the thread reconstruction gives to one message of the thread. -/
def turnOf (botID : GoString) (tc : Message) : ApiMessage :=
  ⟨if tc.Author.ID = botID then lit "assistant" else lit "user", tc.Content⟩

/-- The concatenation, in arrival order, of `message.content` of the decodable lines. -/
def streamText (unmarshal : GoString → Option ApiResponse) : List Event → GoString
  | [] => []
  | Event.tick _ :: rest => streamText unmarshal rest
  | Event.line bytes :: rest =>
    match unmarshal bytes with
    | none => streamText unmarshal rest
    | some chunk => chunk.Message.Content ++ streamText unmarshal rest

/-- Whether an event is a line that `ApiResponseFromJSON` rejects. -/
def undecodable (unmarshal : GoString → Option ApiResponse) : Event → Bool
  | Event.tick _ => false
  | Event.line bytes => (unmarshal bytes).isNone

/-! ## Concrete inputs -/

/-- The line `{"done":false,"message":{"content":"Hi "}}`, newline included. -/
def lineHi : GoString :=
  lit "\x7b\"done\":false,\"message\":\x7b\"content\":\"Hi \"\x7d\x7d\n"

/-- The line `{"done":true,"message":{"content":"there!"}}`, newline included. -/
def lineThere : GoString :=
  lit "\x7b\"done\":true,\"message\":\x7b\"content\":\"there!\"\x7d\x7d\n"

/-- The line `{"done":false,"message":{"content":"hi"}}`, newline included. -/
def lineLowerHi : GoString :=
  lit "\x7b\"done\":false,\"message\":\x7b\"content\":\"hi\"\x7d\x7d\n"

/-- The line `{"garbage"`, newline included; it is not a JSON value. -/
def lineGarbage : GoString := lit "\x7b\"garbage\"\n"

/-- What `json.Unmarshal` answers on the three well-formed lines above; on `lineGarbage`, as on
every other input of this table, it reports an error. -/
def sampleUnmarshal (data : GoString) : Option ApiResponse :=
  if data = lineHi then some ⟨false, ⟨lit "Hi "⟩⟩
  else if data = lineThere then some ⟨true, ⟨lit "there!"⟩⟩
  else if data = lineLowerHi then some ⟨false, ⟨lit "hi"⟩⟩
  else none

/-- A channel profile with two system messages. -/
def sampleChannelConfig : ApiChannelConfig :=
  ⟨lit "http://localhost:11434/api/chat", [], lit "m",
    [lit "You are a helpful assistant.", lit "Answer briefly."], lit "100"⟩

/-- The thread `200`, started in the configured channel `100`. -/
def sampleThread : Channel := ⟨lit "200", lit "100", lit "22", true⟩

/-- The configured channel `100`. -/
def sampleParent : Channel := ⟨lit "100", [], lit "12", false⟩

/-- A message of a user. -/
def userMessage (id channelID content : String) (thread : Option Channel) : Message :=
  ⟨lit id, lit channelID, lit content, MessageTypeDefault, ⟨lit "alice"⟩, thread⟩

/-- A message of the bot. -/
def botMessage (id channelID content : String) : Message :=
  ⟨lit id, lit channelID, lit content, MessageTypeDefault, ⟨lit "bot"⟩, none⟩

/-- A pin notice. -/
def pinNotice (id channelID : String) : Message :=
  ⟨lit id, lit channelID, [], MessageTypeChannelPinnedMessage, ⟨lit "alice"⟩, none⟩

/-- The history of the thread `200`, newest first: a question of a user, an answer of the bot
and a pin notice. -/
def sampleThreadHistory : List Message :=
  [userMessage "22" "200" "And you?" none, botMessage "21" "200" "Hi there!", pinNotice "20" "200"]

/-- An environment with the bot identity `bot`, one configured channel `100` and its thread `200`;
the histories of the thread and of the parent channel and the answer of the completion endpoint
are given. -/
def sampleWorld (threadHistory parentHistory : Option (List Message))
    (response : Option (List Event)) : World where
  botID := lit "bot"
  config := ⟨lit "token", [sampleChannelConfig]⟩
  Channel := fun id =>
    if id = lit "200" then some sampleThread
    else if id = lit "100" then some sampleParent
    else none
  ChannelMessages := fun id _ _ =>
    if id = lit "200" then threadHistory
    else if id = lit "100" then parentHistory
    else none
  MessageThreadStart := fun channelID messageID _ _ => some ⟨messageID, channelID, [], true⟩
  ChannelMessageSend := fun channelID content =>
    some ⟨lit "900", channelID, content, MessageTypeDefault, ⟨lit "bot"⟩, none⟩
  marshal := fun _ => some (lit "request")
  newRequest := fun _ => true
  Do := fun _ _ _ => response
  unmarshal := sampleUnmarshal
  finalEditOk := true
  markerEditOk := true

/-! ## Properties -/

/-- The loop over the system messages reverses them in front of the given messages. -/
theorem makeReplyMessage_messages_eq (S : List GoString) (T : List ApiMessage) :
    makeReplyMessage.messages S T = (S.reverse.map (NewApiMessage (lit "system"))) ++ T := by
  unfold makeReplyMessage.messages
  induction S generalizing T with
  | nil => simp
  | cons a S ih => simp [List.foldl_cons, ih]

/-- C1 (evaluation of the code): with the configured system messages
`You are a helpful assistant.`, `Answer briefly.` and the single turn `user: Hello`, the message
list that `makeReplyMessage` passes to `NewApiRequest` starts with `Answer briefly.`: the system
turns come in the reverse of the configured order. -/
theorem C1_system_turns_reversed :
    (makeReplyMessage.request sampleChannelConfig
        [NewApiMessage (lit "user") (lit "Hello")]).Messages
      = [⟨lit "system", lit "Answer briefly."⟩,
          ⟨lit "system", lit "You are a helpful assistant."⟩,
          ⟨lit "user", lit "Hello"⟩] := by
  decide

/-- The first loop of `fetchThreadContent` with an arbitrary start list. -/
theorem threadMessages_eq (botID : GoString) (threadContent : List Message)
    (messages : List ApiMessage) :
    fetchThreadContent.threadMessages botID threadContent messages
      = ((threadContent.filter (fun tc => decide (tc.Type_ = MessageTypeDefault))).map
          (turnOf botID)).reverse ++ messages := by
  induction threadContent generalizing messages with
  | nil => simp [fetchThreadContent.threadMessages]
  | cons tc rest ih =>
    unfold fetchThreadContent.threadMessages
    by_cases h : tc.Type_ = MessageTypeDefault
    · simp [h, ih, turnOf, NewApiMessage]
    · simp [h, ih]

/-- The anchor scan on a window in which every message carries a thread link: the first message
linked to the thread, if any, is put in front as a `user` turn. -/
theorem anchorScan_of_linked (channelID : GoString) (window : List Message)
    (messages : List ApiMessage) (h : ∀ pcm ∈ window, pcm.Thread ≠ none) :
    fetchThreadContent.anchorScan channelID window messages
      = Outcome.ok
          (match window.find? (fun pcm => decide (pcm.Thread.map Channel.ID = some channelID)) with
           | some anchor => NewApiMessage (lit "user") anchor.Content :: messages
           | none => messages) := by
  induction window with
  | nil => simp [fetchThreadContent.anchorScan]
  | cons pcm rest ih =>
    have hrest : ∀ p ∈ rest, p.Thread ≠ none := fun p hp => h p (List.mem_cons_of_mem _ hp)
    have hp := h pcm (List.mem_cons_self _ _)
    unfold fetchThreadContent.anchorScan
    cases ht : pcm.Thread with
    | none => exact absurd ht hp
    | some thread =>
      by_cases hid : thread.ID = channelID
      · simp [hid, ht, List.find?_cons]
      · simp [hid, ht, List.find?_cons, ih hrest]

/-- The anchor scan faults as soon as it meets a message without a thread link. -/
theorem anchorScan_unlinked_head (channelID : GoString) (pcm : Message) (rest : List Message)
    (messages : List ApiMessage) (h : pcm.Thread = none) :
    fetchThreadContent.anchorScan channelID (pcm :: rest) messages = Outcome.fault := by
  simp [fetchThreadContent.anchorScan, h]

/-- The whole of `fetchThreadContent` when its three fetches succeed and every message of the
window of the parent channel carries a thread link: the first message of the window linked to
this thread, if any, as a `user` turn, then the turns of the thread, oldest first. -/
theorem fetchThreadContent_of_linked (w : World) (channel parent : Channel)
    (parentChannelId : GoString) (threadContent window : List Message)
    (ht : w.ChannelMessages channel.ID 100 [] = some threadContent)
    (hp : w.Channel parentChannelId = some parent)
    (hw : w.ChannelMessages parent.ID 15 parent.LastMessageID = some window)
    (hlinked : ∀ pcm ∈ window, pcm.Thread ≠ none) :
    (fetchThreadContent w channel parentChannelId).result
      = Outcome.ok
          (match window.find? (fun pcm => decide (pcm.Thread.map Channel.ID = some channel.ID)) with
           | some anchor =>
             NewApiMessage (lit "user") anchor.Content ::
               ((threadContent.filter (fun tc => decide (tc.Type_ = MessageTypeDefault))).map
                 (turnOf w.botID)).reverse
           | none =>
             ((threadContent.filter (fun tc => decide (tc.Type_ = MessageTypeDefault))).map
               (turnOf w.botID)).reverse) := by
  unfold fetchThreadContent
  simp only [ht, hp, hw]
  rw [anchorScan_of_linked channel.ID window _ hlinked, threadMessages_eq]
  simp

/-- What the anchor scan returns when it returns: the given messages, or the given messages
behind one `user` turn made of a message of the window. -/
theorem anchorScan_ok (channelID : GoString) (window : List Message)
    (messages turns : List ApiMessage)
    (h : fetchThreadContent.anchorScan channelID window messages = Outcome.ok turns) :
    turns = messages
      ∨ ∃ pcm ∈ window, turns = NewApiMessage (lit "user") pcm.Content :: messages := by
  induction window with
  | nil =>
    simp only [fetchThreadContent.anchorScan, Outcome.ok.injEq] at h
    exact Or.inl h.symm
  | cons pcm rest ih =>
    unfold fetchThreadContent.anchorScan at h
    cases ht : pcm.Thread with
    | none => simp [ht] at h
    | some thread =>
      by_cases hid : thread.ID = channelID
      · simp only [ht, hid, if_true, Outcome.ok.injEq] at h
        exact Or.inr ⟨pcm, List.mem_cons_self _ _, h.symm⟩
      · simp only [ht, hid, if_false] at h
        rcases ih h with h1 | ⟨p, hp, h1⟩
        · exact Or.inl h1
        · exact Or.inr ⟨p, List.mem_cons_of_mem _ hp, h1⟩

/-- C6: thread reconstruction includes only default-type messages.  For every fetched thread
history, whenever `fetchThreadContent` returns a turn list, the turns after the optional anchor
turn are, in reverse fetch order, exactly the fetched messages of default type (every other
message, such as a pin notice, is left out), each with the content of its message and with role
`assistant` when its author is the bot identity and `user` otherwise.  It does return this list:
as it stands when the fetch of the history of the parent channel fails, and behind the anchor
turn, if the window holds an anchor, when every message of the window carries a thread link. -/
theorem C6_thread_turns_default_only (w : World) (channel : Channel)
    (parentChannelId : GoString) (threadContent : List Message)
    (ht : w.ChannelMessages channel.ID 100 [] = some threadContent) :
    fetchThreadContent.threadMessages w.botID threadContent []
        = ((threadContent.filter (fun tc => decide (tc.Type_ = MessageTypeDefault))).map
            (fun tc => ApiMessage.mk
              (if tc.Author.ID = w.botID then lit "assistant" else lit "user")
              tc.Content)).reverse
      ∧ (∀ turns, (fetchThreadContent w channel parentChannelId).result = Outcome.ok turns →
          turns = ((threadContent.filter (fun tc => decide (tc.Type_ = MessageTypeDefault))).map
              (fun tc => ApiMessage.mk
                (if tc.Author.ID = w.botID then lit "assistant" else lit "user")
                tc.Content)).reverse
          ∨ ∃ anchor : GoString,
            turns = ApiMessage.mk (lit "user") anchor ::
              ((threadContent.filter (fun tc => decide (tc.Type_ = MessageTypeDefault))).map
                (fun tc => ApiMessage.mk
                  (if tc.Author.ID = w.botID then lit "assistant" else lit "user")
                  tc.Content)).reverse)
      ∧ (∀ parent, w.Channel parentChannelId = some parent →
          w.ChannelMessages parent.ID 15 parent.LastMessageID = none →
          (fetchThreadContent w channel parentChannelId).result
            = Outcome.ok
                (((threadContent.filter (fun tc => decide (tc.Type_ = MessageTypeDefault))).map
                  (fun tc => ApiMessage.mk
                    (if tc.Author.ID = w.botID then lit "assistant" else lit "user")
                    tc.Content)).reverse))
      ∧ (∀ parent window, w.Channel parentChannelId = some parent →
          w.ChannelMessages parent.ID 15 parent.LastMessageID = some window →
          (∀ pcm ∈ window, pcm.Thread ≠ none) →
          (fetchThreadContent w channel parentChannelId).result
            = Outcome.ok
                (match window.find?
                    (fun pcm => decide (pcm.Thread.map Channel.ID = some channel.ID)) with
                 | some anchor =>
                   ApiMessage.mk (lit "user") anchor.Content ::
                     ((threadContent.filter
                        (fun tc => decide (tc.Type_ = MessageTypeDefault))).map
                      (fun tc => ApiMessage.mk
                        (if tc.Author.ID = w.botID then lit "assistant" else lit "user")
                        tc.Content)).reverse
                 | none =>
                   ((threadContent.filter
                      (fun tc => decide (tc.Type_ = MessageTypeDefault))).map
                    (fun tc => ApiMessage.mk
                      (if tc.Author.ID = w.botID then lit "assistant" else lit "user")
                      tc.Content)).reverse)) := by
  have hT : fetchThreadContent.threadMessages w.botID threadContent []
      = ((threadContent.filter (fun tc => decide (tc.Type_ = MessageTypeDefault))).map
          (fun tc => ApiMessage.mk
            (if tc.Author.ID = w.botID then lit "assistant" else lit "user")
            tc.Content)).reverse := by
    have h := threadMessages_eq w.botID threadContent []
    simpa [turnOf] using h
  refine ⟨hT, ?_, ?_, ?_⟩
  · intro turns hres
    unfold fetchThreadContent at hres
    simp only [ht] at hres
    cases hp : w.Channel parentChannelId with
    | none => simp [hp] at hres
    | some parent =>
      simp only [hp] at hres
      cases hw : w.ChannelMessages parent.ID 15 parent.LastMessageID with
      | none =>
        simp only [hw, Outcome.ok.injEq] at hres
        exact Or.inl (by rw [← hres, hT])
      | some window =>
        simp only [hw] at hres
        rcases anchorScan_ok channel.ID window _ turns hres with h1 | ⟨pcm, _, h1⟩
        · exact Or.inl (by rw [h1, hT])
        · exact Or.inr ⟨pcm.Content, by rw [h1, hT]; rfl⟩
  · intro parent hp hw
    unfold fetchThreadContent
    simp only [ht, hp, hw, hT]
  · intro parent window hp hw hlinked
    have h := fetchThreadContent_of_linked w channel parent parentChannelId threadContent
      window ht hp hw hlinked
    rw [h]
    rfl

/-- C6, on the thread `200`, whose fetched history holds one pin notice and two plain messages:
when the fetch of the history of the parent channel fails, `fetchThreadContent` returns exactly
two turns, `assistant: Hi there!` and `user: And you?`; when the window of the parent channel
holds the anchor `How are you?`, it returns the anchor turn followed by these two turns. -/
theorem C6_thread_turns_default_only_witness :
    (sampleWorld (some sampleThreadHistory) none none).ChannelMessages sampleThread.ID 100 []
        = some sampleThreadHistory
      ∧ (fetchThreadContent (sampleWorld (some sampleThreadHistory) none none) sampleThread
          (lit "100")).result
        = Outcome.ok [⟨lit "assistant", lit "Hi there!"⟩, ⟨lit "user", lit "And you?"⟩]
      ∧ (fetchThreadContent
          (sampleWorld (some sampleThreadHistory)
            (some [userMessage "11" "100" "How are you?" (some sampleThread)]) none)
          sampleThread (lit "100")).result
        = Outcome.ok [⟨lit "user", lit "How are you?"⟩, ⟨lit "assistant", lit "Hi there!"⟩,
            ⟨lit "user", lit "And you?"⟩]
      ∧ (([⟨lit "user", lit "How are you?"⟩, ⟨lit "assistant", lit "Hi there!"⟩,
            ⟨lit "user", lit "And you?"⟩] : List ApiMessage)
          = [⟨lit "assistant", lit "Hi there!"⟩, ⟨lit "user", lit "And you?"⟩]
        ∨ ∃ anchor : GoString,
          ([⟨lit "user", lit "How are you?"⟩, ⟨lit "assistant", lit "Hi there!"⟩,
            ⟨lit "user", lit "And you?"⟩] : List ApiMessage)
          = ApiMessage.mk (lit "user") anchor ::
              [⟨lit "assistant", lit "Hi there!"⟩, ⟨lit "user", lit "And you?"⟩]) := by
  refine ⟨by decide, ?_, ?_, ?_⟩
  · exact ((C6_thread_turns_default_only (sampleWorld (some sampleThreadHistory) none none)
      sampleThread (lit "100") sampleThreadHistory (by decide)).2.2.1 sampleParent
      (by decide) (by decide)).trans (by decide)
  · exact ((C6_thread_turns_default_only
      (sampleWorld (some sampleThreadHistory)
        (some [userMessage "11" "100" "How are you?" (some sampleThread)]) none)
      sampleThread (lit "100") sampleThreadHistory (by decide)).2.2.2 sampleParent
      [userMessage "11" "100" "How are you?" (some sampleThread)]
      (by decide) (by decide) (by decide)).trans (by decide)
  · have h := (C6_thread_turns_default_only
      (sampleWorld (some sampleThreadHistory)
        (some [userMessage "11" "100" "How are you?" (some sampleThread)]) none)
      sampleThread (lit "100") sampleThreadHistory (by decide)).2.1
      [⟨lit "user", lit "How are you?"⟩, ⟨lit "assistant", lit "Hi there!"⟩,
        ⟨lit "user", lit "And you?"⟩] (by decide)
    have hT : ((sampleThreadHistory.filter
        (fun tc => decide (tc.Type_ = MessageTypeDefault))).map
        (fun tc => ApiMessage.mk
          (if tc.Author.ID = (sampleWorld (some sampleThreadHistory)
              (some [userMessage "11" "100" "How are you?" (some sampleThread)]) none).botID
            then lit "assistant" else lit "user") tc.Content)).reverse
        = [⟨lit "assistant", lit "Hi there!"⟩, ⟨lit "user", lit "And you?"⟩] := by decide
    rw [hT] at h
    exact h

/-- C7 (evaluation of the code): the thread `200` has the history `sampleThreadHistory`, and the
window of the parent channel holds, newest first, a message that started no thread and then the
anchor message of thread `200`.  `fetchThreadContent` makes its three fetches and then faults on
`pcm.Thread.ID` of the first message instead of returning the anchor followed by the turns of the
thread. -/
theorem C7_fault_before_anchor :
    fetchThreadContent
        (sampleWorld (some sampleThreadHistory)
          (some [userMessage "12" "100" "Another question" none,
                 userMessage "11" "100" "How are you?" (some sampleThread)])
          none)
        sampleThread (lit "100")
      = ⟨[Action.ChannelMessages (lit "200") 100 [], Action.Channel (lit "100"),
          Action.ChannelMessages (lit "100") 15 (lit "12")], Outcome.fault⟩ := by
  decide

/-- C10 (evaluation of the code): the window of the parent channel holds one message, which
started no thread.  The anchor scan dereferences its missing thread: `fetchThreadContent` ends
with a run-time fault and returns no turn list. -/
theorem C10_anchor_scan_faults :
    (fetchThreadContent
        (sampleWorld (some sampleThreadHistory)
          (some [userMessage "12" "100" "Another question" none]) none)
        sampleThread (lit "100")).result
      = Outcome.fault := by
  decide

/-- The title is always the first 50 bytes of the message. -/
theorem threadName_eq_take (content : GoString) :
    processMessage.threadName content = content.take 50 := by
  unfold processMessage.threadName
  split
  · rw [List.take_of_length_le]; omega
  · rfl

/-- The message `Hello` gives the title `Hello`. -/
theorem threadName_hello : processMessage.threadName (lit "Hello") = lit "Hello" := by
  decide

/-- C8 (evaluation of the code): the message of 17 characters `あ` has 51 bytes, so its title is
cut after 50 bytes: the 16 first characters followed by the first two of the three bytes of the
17th.  The title is neither the full text of this message of fewer than 50 characters nor made
of whole characters. -/
theorem C8_title_cuts_character :
    (String.mk (List.replicate 17 'あ')).length = 17
      ∧ (lit (String.mk (List.replicate 17 'あ'))).length = 51
      ∧ processMessage.threadName (lit (String.mk (List.replicate 17 'あ')))
          = lit (String.mk (List.replicate 16 'あ')) ++ [0xE3, 0x81]
      ∧ processMessage.threadName (lit (String.mk (List.replicate 17 'あ')))
          ≠ lit (String.mk (List.replicate 17 'あ')) := by
  decide

/-! ### The streaming loop -/

/-- A line that fails to decode is skipped: the loop goes on with the next event, the buffer and
the record of edits unchanged. -/
theorem streamLoop_skip (w : World) (channelID messageID allContent bytes : GoString)
    (rest : List Event) (h : ApiResponseFromJSON w.unmarshal bytes = none) :
    streamLoop w channelID messageID allContent (Event.line bytes :: rest)
      = streamLoop w channelID messageID allContent rest := by
  rw [streamLoop, h]

/-- `ApiResponseFromJSON` returns what `json.Unmarshal` decoded, or nothing. -/
theorem ApiResponseFromJSON_eq (unmarshal : GoString → Option ApiResponse) (data : GoString) :
    ApiResponseFromJSON unmarshal data = unmarshal data := by
  unfold ApiResponseFromJSON
  cases unmarshal data <;> rfl

/-- A tick is not an undecodable line. -/
theorem undecodable_tick (unmarshal : GoString → Option ApiResponse) (editOk : Bool) :
    undecodable unmarshal (Event.tick editOk) = false := rfl

/-- A line is undecodable when `json.Unmarshal` reports an error on it. -/
theorem undecodable_line (unmarshal : GoString → Option ApiResponse) (bytes : GoString) :
    undecodable unmarshal (Event.line bytes) = (unmarshal bytes).isNone := rfl

/-- Removing the undecodable lines from the stream changes neither the edits, nor the result,
nor the buffer of the loop. -/
theorem streamLoop_filter (w : World) (channelID messageID : GoString) (events : List Event) :
    ∀ allContent : GoString,
      (streamLoop w channelID messageID allContent
          (events.filter (fun e => !undecodable w.unmarshal e))).edits
        = (streamLoop w channelID messageID allContent events).edits
      ∧ (streamLoop w channelID messageID allContent
          (events.filter (fun e => !undecodable w.unmarshal e))).result
        = (streamLoop w channelID messageID allContent events).result
      ∧ (streamLoop w channelID messageID allContent
          (events.filter (fun e => !undecodable w.unmarshal e))).buffer
        = (streamLoop w channelID messageID allContent events).buffer := by
  induction events with
  | nil => intro allContent; simp
  | cons e rest ih =>
    intro allContent
    cases e with
    | tick editOk =>
      cases editOk with
      | true =>
        have h := ih allContent
        simp only [List.filter_cons, undecodable_tick, Bool.not_false, if_true, streamLoop]
        exact ⟨by rw [h.1], h.2.1, h.2.2⟩
      | false =>
        simp [List.filter_cons, undecodable_tick, streamLoop]
    | line bytes =>
      cases hu : w.unmarshal bytes with
      | none =>
        have hskip : ApiResponseFromJSON w.unmarshal bytes = none := by
          rw [ApiResponseFromJSON_eq, hu]
        rw [streamLoop_skip w channelID messageID allContent bytes rest hskip]
        simpa [List.filter_cons, undecodable_line, hu] using ih allContent
      | some chunk =>
        have hdec : ApiResponseFromJSON w.unmarshal bytes = some chunk := by
          rw [ApiResponseFromJSON_eq, hu]
        cases hd : chunk.Done with
        | true => simp [List.filter_cons, undecodable_line, hu, streamLoop, hdec, hd]
        | false =>
          simpa [List.filter_cons, undecodable_line, hu, streamLoop, hdec, hd]
            using ih (allContent ++ chunk.Message.Content)

/-- C3: a streamed line that fails to decode does not end the loop and does not change the
buffer: the loop goes on with the next line from the same state, and for every stream the buffer
(as well as the edits made and the result) is the one obtained from the stream with all
undecodable lines removed. -/
theorem C3_undecodable_line_skipped (w : World) (channelID messageID allContent : GoString)
    (events : List Event) :
    (∀ (bytes : GoString) (rest : List Event), ApiResponseFromJSON w.unmarshal bytes = none →
        streamLoop w channelID messageID allContent (Event.line bytes :: rest)
          = streamLoop w channelID messageID allContent rest)
      ∧ (streamLoop w channelID messageID allContent events).buffer
          = (streamLoop w channelID messageID allContent
              (events.filter (fun e => !undecodable w.unmarshal e))).buffer
      ∧ (streamLoop w channelID messageID allContent events).edits
          = (streamLoop w channelID messageID allContent
              (events.filter (fun e => !undecodable w.unmarshal e))).edits
      ∧ (streamLoop w channelID messageID allContent events).result
          = (streamLoop w channelID messageID allContent
              (events.filter (fun e => !undecodable w.unmarshal e))).result := by
  have h := streamLoop_filter w channelID messageID events allContent
  exact ⟨fun bytes rest hb => streamLoop_skip w channelID messageID allContent bytes rest hb,
    h.2.2.symm, h.1.symm, h.2.1.symm⟩

/-- C3, on the lines of the scenario: `{"garbage"` fails to decode; the loop that reads it and
then `{"done":false,"message":{"content":"hi"}}` is the loop that reads the second line alone,
it ends with the buffer `hi`, and it ends only because the stream is exhausted after the second
line. -/
theorem C3_undecodable_line_skipped_witness :
    ApiResponseFromJSON (sampleWorld none none none).unmarshal lineGarbage = none
      ∧ streamLoop (sampleWorld none none none) (lit "200") (lit "900") []
            (Event.line lineGarbage :: [Event.line lineLowerHi])
          = streamLoop (sampleWorld none none none) (lit "200") (lit "900") []
              [Event.line lineLowerHi]
      ∧ (streamLoop (sampleWorld none none none) (lit "200") (lit "900") []
            [Event.line lineGarbage, Event.line lineLowerHi]).buffer = lit "hi"
      ∧ (streamLoop (sampleWorld none none none) (lit "200") (lit "900") []
            [Event.line lineGarbage, Event.line lineLowerHi]).result
          = Outcome.err Err.streamRead :=
  ⟨by decide,
    (C3_undecodable_line_skipped (sampleWorld none none none) (lit "200") (lit "900") []
      []).1 lineGarbage [Event.line lineLowerHi] (by decide),
    by decide, by decide⟩

/-- An accepted edit at the end of the record is the last successful edit. -/
theorem lastSuccessfulEdit_append_ok (l : List Action) (site : EditSite)
    (channelID messageID text : GoString) :
    lastSuccessfulEdit (l ++ [Action.ChannelMessageEdit site channelID messageID text true])
      = some text := by
  induction l with
  | nil => simp [lastSuccessfulEdit]
  | cons a l ih => simp [lastSuccessfulEdit, ih]

/-- The loop on a stream whose lines decode, up to its first final chunk, with accepted tick
edits: it ends normally on the final chunk with one last edit of the whole text, and the events
after the final chunk are left unread. -/
theorem streamLoop_to_final (w : World) (channelID messageID bytes : GoString)
    (chunk : ApiResponse) (pre post : List Event)
    (hlines : ∀ b, Event.line b ∈ pre → ∃ c, w.unmarshal b = some c ∧ c.Done = false)
    (hticks : Event.tick false ∉ pre)
    (hchunk : w.unmarshal bytes = some chunk) (hdone : chunk.Done = true) :
    ∀ allContent : GoString, ∃ ticks : List Action,
      streamLoop w channelID messageID allContent (pre ++ Event.line bytes :: post)
        = ⟨ticks ++ [Action.ChannelMessageEdit EditSite.final channelID messageID
              (allContent ++ (streamText w.unmarshal pre ++ chunk.Message.Content)) w.finalEditOk],
            Outcome.ok (),
            allContent ++ (streamText w.unmarshal pre ++ chunk.Message.Content), post⟩ := by
  induction pre with
  | nil =>
    intro allContent
    refine ⟨[], ?_⟩
    have hdec : ApiResponseFromJSON w.unmarshal bytes = some chunk := by
      rw [ApiResponseFromJSON_eq, hchunk]
    simp [streamLoop, hdec, hdone, streamText]
  | cons e pre ih =>
    have hlines' : ∀ b, Event.line b ∈ pre → ∃ c, w.unmarshal b = some c ∧ c.Done = false :=
      fun b hb => hlines b (List.mem_cons_of_mem _ hb)
    have hticks' : Event.tick false ∉ pre := fun h => hticks (List.mem_cons_of_mem _ h)
    intro allContent
    cases e with
    | tick editOk =>
      cases editOk with
      | false => exact absurd (List.mem_cons_self _ _) hticks
      | true =>
        obtain ⟨ticks, ht⟩ := ih hlines' hticks' allContent
        refine ⟨Action.ChannelMessageEdit EditSite.tick channelID messageID allContent true ::
          ticks, ?_⟩
        simp [streamLoop, ht, streamText]
    | line b =>
      obtain ⟨c, hc, hcd⟩ := hlines b (List.mem_cons_self _ _)
      have hdec : ApiResponseFromJSON w.unmarshal b = some c := by
        rw [ApiResponseFromJSON_eq, hc]
      obtain ⟨ticks, ht⟩ := ih hlines' hticks' (allContent ++ c.Message.Content)
      refine ⟨ticks, ?_⟩
      simp [streamLoop, hdec, hcd, ht, streamText, hc, List.append_assoc]

/-- C2 (as amended): for every stream of well-formed chunk lines that contains a final chunk and
every interleaving of timer ticks with line reads, provided the chat platform accepts every tick
edit made before the final chunk and the final edit, `updateMessageWithAPIResponse` returns
normally, the text of its last successful edit is the concatenation, in arrival order, of
`message.content` of all chunks up to and including the first final chunk, the buffer holds that
text, and nothing after that chunk is read. -/
theorem C2_last_edit_full_text (w : World)
    (channelID messageID apiUrl apiAuthToken requestBody bytes : GoString)
    (chunk : ApiResponse) (pre post : List Event)
    (hnew : w.newRequest apiUrl = true)
    (hdo : w.Do apiUrl (if apiAuthToken ≠ [] then some (lit "Bearer " ++ apiAuthToken) else none)
      requestBody = some (pre ++ Event.line bytes :: post))
    (hlines : ∀ b, Event.line b ∈ pre → ∃ c, w.unmarshal b = some c ∧ c.Done = false)
    (hticks : Event.tick false ∉ pre)
    (hchunk : w.unmarshal bytes = some chunk) (hdone : chunk.Done = true)
    (hfinal : w.finalEditOk = true) :
    lastSuccessfulEdit
        (updateMessageWithAPIResponse w channelID messageID apiUrl apiAuthToken requestBody).actions
        = some (streamText w.unmarshal pre ++ chunk.Message.Content)
      ∧ (updateMessageWithAPIResponse w channelID messageID apiUrl apiAuthToken requestBody).result
        = Outcome.ok ()
      ∧ (streamLoop w channelID messageID [] (pre ++ Event.line bytes :: post)).buffer
        = streamText w.unmarshal pre ++ chunk.Message.Content
      ∧ (streamLoop w channelID messageID [] (pre ++ Event.line bytes :: post)).unread = post := by
  obtain ⟨ticks, ht⟩ := streamLoop_to_final w channelID messageID bytes chunk pre post
    hlines hticks hchunk hdone []
  have hupd : updateMessageWithAPIResponse w channelID messageID apiUrl apiAuthToken requestBody
      = ⟨Action.Do apiUrl
            (if apiAuthToken ≠ [] then some (lit "Bearer " ++ apiAuthToken) else none)
            requestBody ::
          (streamLoop w channelID messageID [] (pre ++ Event.line bytes :: post)).edits,
        (streamLoop w channelID messageID [] (pre ++ Event.line bytes :: post)).result⟩ := by
    simp only [updateMessageWithAPIResponse, hnew, if_true, hdo]
  rw [hupd, ht, hfinal]
  refine ⟨?_, rfl, by simp, rfl⟩
  have := lastSuccessfulEdit_append_ok
    (Action.Do apiUrl (if apiAuthToken ≠ [] then some (lit "Bearer " ++ apiAuthToken) else none)
      requestBody :: ticks) EditSite.final channelID messageID
    (streamText w.unmarshal pre ++ chunk.Message.Content)
  simpa using this

/-- C2, on the lines of the scenario: `{"done":false,"message":{"content":"Hi "}}`, a tick, then
`{"done":true,"message":{"content":"there!"}}` and one more line give a last successful edit equal
to `Hi there!`, and the line after the final chunk stays unread. -/
theorem C2_last_edit_full_text_witness :
    lastSuccessfulEdit
        (updateMessageWithAPIResponse
          (sampleWorld none none
            (some ([Event.line lineHi, Event.tick true] ++ Event.line lineThere ::
              [Event.line lineLowerHi])))
          (lit "200") (lit "900") (lit "http://localhost:11434/api/chat") [] (lit "request")).actions
        = some (lit "Hi there!")
      ∧ (streamLoop
          (sampleWorld none none
            (some ([Event.line lineHi, Event.tick true] ++ Event.line lineThere ::
              [Event.line lineLowerHi])))
          (lit "200") (lit "900") []
          ([Event.line lineHi, Event.tick true] ++ Event.line lineThere ::
              [Event.line lineLowerHi])).unread = [Event.line lineLowerHi] := by
  have h := C2_last_edit_full_text
    (sampleWorld none none
      (some ([Event.line lineHi, Event.tick true] ++ Event.line lineThere ::
        [Event.line lineLowerHi])))
    (lit "200") (lit "900") (lit "http://localhost:11434/api/chat") [] (lit "request")
    lineThere ⟨true, ⟨lit "there!"⟩⟩ [Event.line lineHi, Event.tick true]
    [Event.line lineLowerHi] (by decide) (by decide)
    (by
      intro b hb
      have hb' : b = lineHi := by simpa using hb
      subst hb'
      exact ⟨⟨false, ⟨lit "Hi "⟩⟩, by decide, rfl⟩)
    (by decide) (by decide) rfl rfl
  refine ⟨?_, h.2.2.2⟩
  have ht : streamText (sampleWorld none none
      (some ([Event.line lineHi, Event.tick true] ++ Event.line lineThere ::
        [Event.line lineLowerHi]))).unmarshal [Event.line lineHi, Event.tick true]
      ++ (ApiResponse.mk true ⟨lit "there!"⟩).Message.Content = lit "Hi there!" := by decide
  rw [← ht]
  exact h.1

/-- C2 (counterexample): the stream of the scenario, two well-formed lines of which the second
is final, with one tick between the two reads; the chat platform accepts the edit of the tick and
rejects the final edit.  The chunks up to the final one spell `Hi there!`, the loop reads both
lines and returns normally, and the last successful edit is `Hi `. -/
theorem C2_counterexample :
    undecodable sampleUnmarshal (Event.line lineHi) = false
      ∧ undecodable sampleUnmarshal (Event.line lineThere) = false
      ∧ (sampleUnmarshal lineThere).map ApiResponse.Done = some true
      ∧ streamText sampleUnmarshal [Event.line lineHi, Event.line lineThere] = lit "Hi there!"
      ∧ updateMessageWithAPIResponse
          { sampleWorld none none
              (some [Event.line lineHi, Event.tick true, Event.line lineThere]) with
            finalEditOk := false }
          (lit "200") (lit "900") (lit "http://localhost:11434/api/chat") [] (lit "request")
        = ⟨[Action.Do (lit "http://localhost:11434/api/chat") none (lit "request"),
            Action.ChannelMessageEdit EditSite.tick (lit "200") (lit "900") (lit "Hi ") true,
            Action.ChannelMessageEdit EditSite.final (lit "200") (lit "900") (lit "Hi there!")
              false],
           Outcome.ok ()⟩
      ∧ lastSuccessfulEdit
          (updateMessageWithAPIResponse
            { sampleWorld none none
                (some [Event.line lineHi, Event.tick true, Event.line lineThere]) with
              finalEditOk := false }
            (lit "200") (lit "900") (lit "http://localhost:11434/api/chat") []
            (lit "request")).actions
        = some (lit "Hi ")
      ∧ lit "Hi " ≠ lit "Hi there!" := by
  decide

/-! ### Failure paths of the reply engine -/

/-- The loop makes only edits; it ends normally, on a rejected tick edit, or on a failed read, and
only in the last case does it write the error text, once, as its last call. -/
theorem streamLoop_shape (w : World) (channelID messageID : GoString) (events : List Event) :
    ∀ allContent : GoString,
      (streamLoop w channelID messageID allContent events).edits.countP Action.isDo = 0
      ∧ (((streamLoop w channelID messageID allContent events).result = Outcome.ok ()
            ∧ (streamLoop w channelID messageID allContent events).edits.countP
                Action.isMarkerEdit = 0)
        ∨ ((streamLoop w channelID messageID allContent events).result
              = Outcome.err Err.editTick
            ∧ (streamLoop w channelID messageID allContent events).edits.countP
                Action.isMarkerEdit = 0)
        ∨ ((streamLoop w channelID messageID allContent events).result
              = Outcome.err Err.streamRead
            ∧ (streamLoop w channelID messageID allContent events).edits.countP
                Action.isMarkerEdit = 1
            ∧ (streamLoop w channelID messageID allContent events).edits.getLast?
                = some (Action.ChannelMessageEdit EditSite.marker channelID messageID errorMarker
                    w.markerEditOk))) := by
  induction events with
  | nil => intro allContent; simp [streamLoop, Action.isDo, Action.isMarkerEdit]
  | cons e rest ih =>
    intro allContent
    cases e with
    | tick editOk =>
      cases editOk with
      | false => simp [streamLoop, Action.isDo, Action.isMarkerEdit]
      | true =>
        obtain ⟨hdo, h⟩ := ih allContent
        refine ⟨by simp [streamLoop, Action.isDo, List.countP_cons, hdo], ?_⟩
        rcases h with h | h | h
        · exact Or.inl ⟨by simp [streamLoop, h.1],
            by simp [streamLoop, Action.isMarkerEdit, List.countP_cons, h.2]⟩
        · exact Or.inr (Or.inl ⟨by simp [streamLoop, h.1],
            by simp [streamLoop, Action.isMarkerEdit, List.countP_cons, h.2]⟩)
        · refine Or.inr (Or.inr ⟨by simp [streamLoop, h.1],
            by simp [streamLoop, Action.isMarkerEdit, List.countP_cons, h.2.1], ?_⟩)
          simp only [streamLoop, if_true]
          rw [List.getLast?_cons, h.2.2]
          rfl
    | line bytes =>
      cases hdec : ApiResponseFromJSON w.unmarshal bytes with
      | none =>
        rw [streamLoop_skip w channelID messageID allContent bytes rest hdec]
        exact ih allContent
      | some chunk =>
        cases hd : chunk.Done with
        | true => simp [streamLoop, hdec, hd, Action.isDo, Action.isMarkerEdit]
        | false =>
          have h := ih (allContent ++ chunk.Message.Content)
          simpa [streamLoop, hdec, hd] using h

/-- The three ways `updateMessageWithAPIResponse` goes: the request cannot be built and nothing
is called; the request is sent and fails, and the error text is written; the request is sent and
the streaming loop runs. -/
theorem updateMessageWithAPIResponse_cases (w : World)
    (channelID messageID apiUrl apiAuthToken requestBody : GoString) :
    updateMessageWithAPIResponse w channelID messageID apiUrl apiAuthToken requestBody
        = ⟨[], Outcome.err Err.newRequest⟩
      ∨ (∃ authorization,
          updateMessageWithAPIResponse w channelID messageID apiUrl apiAuthToken requestBody
            = ⟨[Action.Do apiUrl authorization requestBody,
                Action.ChannelMessageEdit EditSite.marker channelID messageID errorMarker
                  w.markerEditOk], Outcome.err Err.apiSend⟩)
      ∨ (∃ authorization events,
          updateMessageWithAPIResponse w channelID messageID apiUrl apiAuthToken requestBody
            = ⟨Action.Do apiUrl authorization requestBody ::
                (streamLoop w channelID messageID [] events).edits,
               (streamLoop w channelID messageID [] events).result⟩) := by
  unfold updateMessageWithAPIResponse
  generalize (if apiAuthToken ≠ [] then some (lit "Bearer " ++ apiAuthToken) else none) = auth
  cases w.newRequest apiUrl with
  | false => exact Or.inl (by simp)
  | true =>
    cases hd : w.Do apiUrl auth requestBody with
    | none => exact Or.inr (Or.inl ⟨auth, by simp [hd]⟩)
    | some events => exact Or.inr (Or.inr ⟨auth, events, by simp [hd]⟩)

/-- C5 (as amended): `makeReplyMessage` issues the HTTP request at most once on every path.  When
it ends with the failure of the API send or of a read of the stream, it has written the fixed
error text to the placeholder exactly once, as its last call; when it ends on a rejected tick
edit it has not written the error text at all.  When the API send fails, the write of the error
text is the only edit of the placeholder. -/
theorem C5_error_marker_paths (w : World) (channelID : GoString)
    (channelConfig : ApiChannelConfig) (messages : List ApiMessage) :
    (makeReplyMessage w channelID channelConfig messages).actions.countP Action.isDo ≤ 1
      ∧ ((makeReplyMessage w channelID channelConfig messages).result = Outcome.err Err.apiSend
          ∨ (makeReplyMessage w channelID channelConfig messages).result
              = Outcome.err Err.streamRead →
          (makeReplyMessage w channelID channelConfig messages).actions.countP
              Action.isMarkerEdit = 1
          ∧ ∃ tempMessage, w.ChannelMessageSend channelID placeholderText = some tempMessage
            ∧ (makeReplyMessage w channelID channelConfig messages).actions.getLast?
              = some (Action.ChannelMessageEdit EditSite.marker channelID tempMessage.ID
                  errorMarker w.markerEditOk))
      ∧ ((makeReplyMessage w channelID channelConfig messages).result
            = Outcome.err Err.editTick →
          (makeReplyMessage w channelID channelConfig messages).actions.countP
              Action.isMarkerEdit = 0)
      ∧ ((makeReplyMessage w channelID channelConfig messages).result
            = Outcome.err Err.apiSend →
          ∃ tempMessage, w.ChannelMessageSend channelID placeholderText = some tempMessage
            ∧ (makeReplyMessage w channelID channelConfig messages).actions.filter Action.isEdit
              = [Action.ChannelMessageEdit EditSite.marker channelID tempMessage.ID errorMarker
                  w.markerEditOk]) := by
  unfold makeReplyMessage
  cases hs : w.ChannelMessageSend channelID placeholderText with
  | none => simp [Action.isDo, Action.isMarkerEdit]
  | some tempMessage =>
    cases hj : (makeReplyMessage.request channelConfig messages).toJSON w with
    | none => simp [Action.isDo, Action.isMarkerEdit]
    | some requestBody =>
      rcases updateMessageWithAPIResponse_cases w channelID tempMessage.ID channelConfig.ApiUrl
        channelConfig.ApiAuthToken requestBody with hu | ⟨auth, hu⟩ | ⟨auth, events, hu⟩
      · simp [hu, Action.isDo, Action.isMarkerEdit]
      · simp [hu, Action.isDo, Action.isMarkerEdit, Action.isEdit, List.countP_cons]
      · obtain ⟨hdo, h⟩ := streamLoop_shape w channelID tempMessage.ID events []
        simp only [hu]
        rcases h with h | h | h
        · simp [h.1, h.2, hdo, Action.isDo, Action.isMarkerEdit, List.countP_cons]
        · simp [h.1, h.2, hdo, Action.isDo, Action.isMarkerEdit, List.countP_cons]
        · refine ⟨by simp [hdo, Action.isDo, List.countP_cons], ?_, ?_, ?_⟩
          · intro _
            refine ⟨by simp [h.2.1, Action.isMarkerEdit, List.countP_cons], tempMessage, rfl, ?_⟩
            rw [List.getLast?_cons, List.getLast?_cons, h.2.2]
            rfl
          · intro hr
            rw [h.1] at hr
            exact absurd hr (by decide)
          · intro hr
            rw [h.1] at hr
            exact absurd hr (by decide)

/-- C5, on two runs.  When the API send fails, the run ends with that failure, the error text is
written once and this write is the only edit of the placeholder `900`.  When the chat platform
rejects the edit of a tick after the first line, the run ends with that failure and the error
text is never written. -/
theorem C5_error_marker_paths_witness :
    ((makeReplyMessage (sampleWorld none none none) (lit "200") sampleChannelConfig
          [NewApiMessage (lit "user") (lit "Hello")]).result = Outcome.err Err.apiSend
        ∧ (makeReplyMessage (sampleWorld none none none) (lit "200") sampleChannelConfig
            [NewApiMessage (lit "user") (lit "Hello")]).actions.countP Action.isMarkerEdit = 1
        ∧ ∃ tempMessage,
            (sampleWorld none none none).ChannelMessageSend (lit "200") placeholderText
              = some tempMessage
            ∧ (makeReplyMessage (sampleWorld none none none) (lit "200") sampleChannelConfig
                [NewApiMessage (lit "user") (lit "Hello")]).actions.filter Action.isEdit
              = [Action.ChannelMessageEdit EditSite.marker (lit "200") tempMessage.ID errorMarker
                  (sampleWorld none none none).markerEditOk])
      ∧ ((makeReplyMessage
            (sampleWorld none none (some [Event.line lineHi, Event.tick false]))
            (lit "200") sampleChannelConfig
            [NewApiMessage (lit "user") (lit "Hello")]).result = Outcome.err Err.editTick
        ∧ (makeReplyMessage
            (sampleWorld none none (some [Event.line lineHi, Event.tick false]))
            (lit "200") sampleChannelConfig
            [NewApiMessage (lit "user") (lit "Hello")]).actions.countP Action.isMarkerEdit = 0) :=
  ⟨⟨by decide,
      ((C5_error_marker_paths (sampleWorld none none none) (lit "200") sampleChannelConfig
        [NewApiMessage (lit "user") (lit "Hello")]).2.1 (Or.inl (by decide))).1,
      (C5_error_marker_paths (sampleWorld none none none) (lit "200") sampleChannelConfig
        [NewApiMessage (lit "user") (lit "Hello")]).2.2.2 (by decide)⟩,
    ⟨by decide,
      (C5_error_marker_paths
        (sampleWorld none none (some [Event.line lineHi, Event.tick false]))
        (lit "200") sampleChannelConfig
        [NewApiMessage (lit "user") (lit "Hello")]).2.2.1 (by decide)⟩⟩

/-- C5 (counterexample): the placeholder `900` is posted, the request is sent, the first line is
read, and the chat platform rejects the edit of the next tick.  `makeReplyMessage` ends with this
failure; the only edit it made is the rejected one and the error text was never written. -/
theorem C5_counterexample :
    makeReplyMessage (sampleWorld none none (some [Event.line lineHi, Event.tick false]))
        (lit "200") sampleChannelConfig [NewApiMessage (lit "user") (lit "Hello")]
      = ⟨[Action.ChannelMessageSend (lit "200") placeholderText,
          Action.Do (lit "http://localhost:11434/api/chat") none (lit "request"),
          Action.ChannelMessageEdit EditSite.tick (lit "200") (lit "900") (lit "Hi ") false],
         Outcome.err Err.editTick⟩
      ∧ (makeReplyMessage (sampleWorld none none (some [Event.line lineHi, Event.tick false]))
          (lit "200") sampleChannelConfig
          [NewApiMessage (lit "user") (lit "Hello")]).actions.countP Action.isMarkerEdit ≠ 1 := by
  decide

/-! ### Failures of the thread reconstruction -/

/-- The calls of `fetchThreadContent` are fetches. -/
theorem fetchThreadContent_fetches (w : World) (channel : Channel) (parentChannelId : GoString) :
    ∀ a ∈ (fetchThreadContent w channel parentChannelId).actions, a.isReply = false := by
  unfold fetchThreadContent
  cases ht : w.ChannelMessages channel.ID 100 [] with
  | none => simp [Action.isReply, Action.isSend, Action.isEdit, Action.isDo, Action.isThreadStart]
  | some threadContent =>
    cases hp : w.Channel parentChannelId with
    | none =>
      simp [Action.isReply, Action.isSend, Action.isEdit, Action.isDo, Action.isThreadStart]
    | some parent =>
      cases hh : w.ChannelMessages parent.ID 15 parent.LastMessageID <;>
        simp [hh, Action.isReply, Action.isSend, Action.isEdit, Action.isDo, Action.isThreadStart]

/-- C4 (as amended): if fetching the history of the thread or the metadata of the parent channel
fails, `fetchThreadContent` returns an error and no turn list, and `checkAndReplyToThread` then
gives up without posting a placeholder, editing a message or sending a request.  If only the
fetch of the message history of the parent channel fails, `fetchThreadContent` returns, without
an error, the turns of the thread itself. -/
theorem C4_fetch_failures (w : World) (m : Message) (channel : Channel)
    (parentChannelId : GoString) :
    (w.ChannelMessages channel.ID 100 [] = none ∨ w.Channel parentChannelId = none →
        ∃ e, (fetchThreadContent w channel parentChannelId).result = Outcome.err e)
      ∧ ((∀ ch, w.Channel m.ChannelID = some ch →
            w.ChannelMessages ch.ID 100 [] = none ∨ w.Channel ch.ParentID = none) →
          ∀ a ∈ (checkAndReplyToThread w m).actions, a.isReply = false)
      ∧ (∀ threadContent parent, w.ChannelMessages channel.ID 100 [] = some threadContent →
          w.Channel parentChannelId = some parent →
          w.ChannelMessages parent.ID 15 parent.LastMessageID = none →
          (fetchThreadContent w channel parentChannelId).result
            = Outcome.ok (fetchThreadContent.threadMessages w.botID threadContent [])) := by
  have herr : ∀ (c : Channel) (pid : GoString),
      w.ChannelMessages c.ID 100 [] = none ∨ w.Channel pid = none →
      ∃ e, (fetchThreadContent w c pid).result = Outcome.err e := by
    intro c pid h
    unfold fetchThreadContent
    cases ht : w.ChannelMessages c.ID 100 [] with
    | none => exact ⟨Err.fetchThread, rfl⟩
    | some threadContent =>
      rcases h with h | h
      · rw [ht] at h; exact absurd h (by simp)
      · simp only [h]; exact ⟨Err.fetchParent, rfl⟩
  refine ⟨herr channel parentChannelId, ?_, ?_⟩
  · intro h
    unfold checkAndReplyToThread
    cases hc : w.Channel m.ChannelID with
    | none => simp [Action.isReply, Action.isSend, Action.isEdit, Action.isDo, Action.isThreadStart]
    | some ch =>
      cases hthread : ch.IsThread with
      | false =>
        simp [hthread, Action.isReply, Action.isSend, Action.isEdit, Action.isDo,
          Action.isThreadStart]
      | true =>
        cases hcfg : w.config.FindChannelConfig ch.ParentID with
        | none =>
          simp [hthread, hcfg, Action.isReply, Action.isSend, Action.isEdit, Action.isDo,
            Action.isThreadStart]
        | some channelConfig =>
          obtain ⟨e, he⟩ := herr ch ch.ParentID (h ch hc)
          have hf := fetchThreadContent_fetches w ch ch.ParentID
          simp only [hthread, hcfg, he, if_true]
          intro a ha
          rcases List.mem_cons.mp ha with ha | ha
          · subst ha; rfl
          · exact hf a ha
  · intro threadContent parent ht hp hh
    unfold fetchThreadContent
    simp only [ht, hp, hh]

/-- C4, on two runs in the thread `200`.  When the fetch of the history of the thread fails,
`fetchThreadContent` returns an error and `checkAndReplyToThread` makes no call other than
fetches.  When only the fetch of the history of the parent channel fails, `fetchThreadContent`
returns the turns of the thread. -/
theorem C4_fetch_failures_witness :
    ((sampleWorld none (some []) none).ChannelMessages sampleThread.ID 100 [] = none
        ∨ (sampleWorld none (some []) none).Channel (lit "100") = none)
      ∧ (∃ e, (fetchThreadContent (sampleWorld none (some []) none) sampleThread
            (lit "100")).result = Outcome.err e)
      ∧ (∀ a ∈ (checkAndReplyToThread (sampleWorld none (some []) none)
            (userMessage "22" "200" "And you?" none)).actions, a.isReply = false)
      ∧ (sampleWorld (some sampleThreadHistory) none none).ChannelMessages sampleParent.ID 15
            sampleParent.LastMessageID = none
      ∧ (fetchThreadContent (sampleWorld (some sampleThreadHistory) none none) sampleThread
            (lit "100")).result
          = Outcome.ok (fetchThreadContent.threadMessages
              (sampleWorld (some sampleThreadHistory) none none).botID sampleThreadHistory []) :=
  ⟨Or.inl (by decide),
    (C4_fetch_failures (sampleWorld none (some []) none)
      (userMessage "22" "200" "And you?" none) sampleThread (lit "100")).1 (Or.inl (by decide)),
    (C4_fetch_failures (sampleWorld none (some []) none)
      (userMessage "22" "200" "And you?" none) sampleThread (lit "100")).2.1
      (fun ch hch => by
        have h2 : (sampleWorld none (some []) none).Channel
            (userMessage "22" "200" "And you?" none).ChannelID = some sampleThread := by decide
        rw [h2] at hch
        rw [← Option.some.inj hch]
        exact Or.inl (by decide)),
    by decide,
    (C4_fetch_failures (sampleWorld (some sampleThreadHistory) none none)
      (userMessage "22" "200" "And you?" none) sampleThread (lit "100")).2.2
      sampleThreadHistory sampleParent (by decide) (by decide) (by decide)⟩

/-- C4 (counterexample): a user writes `And you?` in the thread `200`; the history of the thread
and the metadata of the parent channel `100` are fetched, the fetch of the message history of the
parent channel fails.  `fetchThreadContent` returns no error but the turns of the thread, without
the anchor message, and `checkAndReplyToThread` posts the placeholder, sends the request and
edits the placeholder with the answer. -/
theorem C4_counterexample :
    (sampleWorld (some sampleThreadHistory) none
        (some [Event.line lineHi, Event.line lineThere])).ChannelMessages (lit "100") 15
        (lit "12") = none
      ∧ fetchThreadContent
          (sampleWorld (some sampleThreadHistory) none
            (some [Event.line lineHi, Event.line lineThere]))
          sampleThread (lit "100")
        = ⟨[Action.ChannelMessages (lit "200") 100 [], Action.Channel (lit "100"),
            Action.ChannelMessages (lit "100") 15 (lit "12")],
           Outcome.ok [⟨lit "assistant", lit "Hi there!"⟩, ⟨lit "user", lit "And you?"⟩]⟩
      ∧ (checkAndReplyToThread
          (sampleWorld (some sampleThreadHistory) none
            (some [Event.line lineHi, Event.line lineThere]))
          (userMessage "22" "200" "And you?" none)).actions
        = [Action.Channel (lit "200"),
           Action.ChannelMessages (lit "200") 100 [], Action.Channel (lit "100"),
           Action.ChannelMessages (lit "100") 15 (lit "12"),
           Action.ChannelMessageSend (lit "200") placeholderText,
           Action.Do (lit "http://localhost:11434/api/chat") none (lit "request"),
           Action.ChannelMessageEdit EditSite.final (lit "200") (lit "900") (lit "Hi there!")
             true] := by
  decide

/-! ### Routing -/

/-- `FindChannelConfig` returns the first configured record with the given channel id. -/
theorem FindChannelConfig_eq_find (c : Config) (channelId : GoString) :
    c.FindChannelConfig channelId
      = c.ApiChannelConfig.find? (fun apiConfig => decide (apiConfig.ChatChannelId = channelId)) := by
  unfold Config.FindChannelConfig
  induction c.ApiChannelConfig with
  | nil => rfl
  | cons apiConfig rest ih =>
    unfold FindChannelConfig.loop
    by_cases h : apiConfig.ChatChannelId = channelId
    · simp [h, List.find?_cons]
    · simp [h, List.find?_cons, ih]

/-- The streaming loop only edits. -/
theorem streamLoop_edits (w : World) (channelID messageID : GoString) (events : List Event) :
    ∀ allContent : GoString,
      ∀ a ∈ (streamLoop w channelID messageID allContent events).edits, a.isEdit = true := by
  induction events with
  | nil => intro allContent; simp [streamLoop, Action.isEdit]
  | cons e rest ih =>
    intro allContent
    cases e with
    | tick editOk =>
      cases editOk with
      | false => simp [streamLoop, Action.isEdit]
      | true =>
        intro a ha
        simp only [streamLoop, if_true, List.mem_cons] at ha
        rcases ha with ha | ha
        · subst ha; rfl
        · exact ih allContent a ha
    | line bytes =>
      cases hdec : ApiResponseFromJSON w.unmarshal bytes with
      | none =>
        rw [streamLoop_skip w channelID messageID allContent bytes rest hdec]
        exact ih allContent
      | some chunk =>
        cases hd : chunk.Done with
        | true => simp [streamLoop, hdec, hd, Action.isEdit]
        | false =>
          have h := ih (allContent ++ chunk.Message.Content)
          simpa [streamLoop, hdec, hd] using h

/-- The reply engine neither starts a thread nor fetches a history. -/
theorem makeReplyMessage_calls (w : World) (channelID : GoString)
    (channelConfig : ApiChannelConfig) (messages : List ApiMessage) :
    ∀ a ∈ (makeReplyMessage w channelID channelConfig messages).actions,
      a.isThreadStart = false ∧ a.isChannelMessages = false := by
  unfold makeReplyMessage
  cases hs : w.ChannelMessageSend channelID placeholderText with
  | none => simp [Action.isThreadStart, Action.isChannelMessages]
  | some tempMessage =>
    cases hj : (makeReplyMessage.request channelConfig messages).toJSON w with
    | none => simp [Action.isThreadStart, Action.isChannelMessages]
    | some requestBody =>
      rcases updateMessageWithAPIResponse_cases w channelID tempMessage.ID channelConfig.ApiUrl
        channelConfig.ApiAuthToken requestBody with hu | ⟨auth, hu⟩ | ⟨auth, events, hu⟩
      · simp [hu, Action.isThreadStart, Action.isChannelMessages]
      · simp [hu, Action.isThreadStart, Action.isChannelMessages]
      · simp only [hu]
        intro a ha
        simp only [List.mem_cons] at ha
        rcases ha with ha | ha | ha
        · subst ha; exact ⟨rfl, rfl⟩
        · subst ha; exact ⟨rfl, rfl⟩
        · have he := streamLoop_edits w channelID tempMessage.ID events [] a ha
          cases a <;> simp_all [Action.isEdit, Action.isThreadStart, Action.isChannelMessages]

/-- The calls of `processMessage`: the start of the thread, then calls of the reply engine. -/
theorem processMessage_calls (w : World) (m : Message) (channelConfig : ApiChannelConfig) :
    ∃ rest, (processMessage w m channelConfig).actions
        = Action.MessageThreadStart m.ChannelID m.ID (processMessage.threadName m.Content) 60 :: rest
      ∧ ∀ a ∈ rest, a.isThreadStart = false ∧ a.isChannelMessages = false := by
  unfold processMessage makeReplyWithThread
  cases hs : w.MessageThreadStart m.ChannelID m.ID (processMessage.threadName m.Content) 60 with
  | none => exact ⟨[], by simp⟩
  | some thread =>
    refine ⟨(makeReplyMessage w thread.ID channelConfig
      [NewApiMessage (lit "user") m.Content]).actions, ?_, makeReplyMessage_calls _ _ _ _⟩
    simp only []
    cases (makeReplyMessage w thread.ID channelConfig
      [NewApiMessage (lit "user") m.Content]).result <;> rfl

/-- The first call of `fetchThreadContent` fetches the history of the thread. -/
theorem fetchThreadContent_first (w : World) (channel : Channel) (parentChannelId : GoString) :
    ∃ rest, (fetchThreadContent w channel parentChannelId).actions
      = Action.ChannelMessages channel.ID 100 [] :: rest := by
  unfold fetchThreadContent
  cases ht : w.ChannelMessages channel.ID 100 [] with
  | none => exact ⟨[], rfl⟩
  | some threadContent =>
    cases hp : w.Channel parentChannelId with
    | none => exact ⟨_, rfl⟩
    | some parent =>
      cases hh : w.ChannelMessages parent.ID 15 parent.LastMessageID <;>
        simp only [hh] <;> exact ⟨_, rfl⟩

/-- The calls of `checkAndReplyToThread`: the lookup of the channel of the event, then, when the
channel is a thread whose parent has a profile, the calls of `fetchThreadContent`, then calls of
the reply engine. -/
theorem checkAndReplyToThread_calls (w : World) (m : Message) :
    (∀ a ∈ (checkAndReplyToThread w m).actions, a.isThreadStart = false)
      ∧ (∀ ch channelConfig, w.Channel m.ChannelID = some ch → ch.IsThread = true →
          w.config.FindChannelConfig ch.ParentID = some channelConfig →
          ∃ rest, (checkAndReplyToThread w m).actions
            = Action.Channel m.ChannelID :: Action.ChannelMessages ch.ID 100 [] :: rest)
      ∧ ((¬ ∃ ch channelConfig, w.Channel m.ChannelID = some ch ∧ ch.IsThread = true
            ∧ w.config.FindChannelConfig ch.ParentID = some channelConfig) →
          checkAndReplyToThread w m = ⟨[Action.Channel m.ChannelID], Outcome.ok ()⟩) := by
  unfold checkAndReplyToThread
  cases hc : w.Channel m.ChannelID with
  | none => simp [Action.isThreadStart]
  | some ch =>
    cases hthread : ch.IsThread with
    | false =>
      simp only [hthread, Action.isThreadStart]
      refine ⟨by simp, ?_, fun _ => rfl⟩
      intro ch1 cfg h1 h2
      rw [← Option.some.inj h1, hthread] at h2
      exact absurd h2 (by decide)
    | true =>
      cases hcfg : w.config.FindChannelConfig ch.ParentID with
      | none =>
        simp only [hthread, hcfg, Action.isThreadStart]
        refine ⟨by simp, ?_, fun _ => rfl⟩
        intro ch1 cfg h1 _ h3
        rw [← Option.some.inj h1, hcfg] at h3
        exact absurd h3 (by simp)
      | some channelConfig =>
        have hf := fetchThreadContent_fetches w ch ch.ParentID
        obtain ⟨rest, hrest⟩ := fetchThreadContent_first w ch ch.ParentID
        have hfs : ∀ a ∈ (fetchThreadContent w ch ch.ParentID).actions,
            a.isThreadStart = false := by
          intro a ha
          have := hf a ha
          simp only [Action.isReply, Bool.or_eq_false_iff] at this
          exact this.2
        simp only [hthread, hcfg, if_true]
        refine ⟨?_, ?_, ?_⟩
        · cases hr : (fetchThreadContent w ch ch.ParentID).result with
          | fault =>
            intro a ha
            simp only [List.mem_cons] at ha
            rcases ha with ha | ha
            · subst ha; rfl
            · exact hfs a ha
          | err e =>
            intro a ha
            simp only [List.mem_cons] at ha
            rcases ha with ha | ha
            · subst ha; rfl
            · exact hfs a ha
          | ok threadContent =>
            by_cases hl : threadContent.length = 0
            · intro a ha
              simp only [hl, if_true, List.mem_cons] at ha
              rcases ha with ha | ha
              · subst ha; rfl
              · exact hfs a ha
            · have hm := makeReplyMessage_calls w m.ChannelID channelConfig threadContent
              intro a ha
              have ha' : a ∈ Action.Channel m.ChannelID ::
                  ((fetchThreadContent w ch ch.ParentID).actions ++
                    (makeReplyMessage w m.ChannelID channelConfig threadContent).actions) := by
                simp only [hl, if_false] at ha
                cases hmr : (makeReplyMessage w m.ChannelID channelConfig threadContent).result
                  <;> simpa [hmr] using ha
              simp only [List.mem_cons, List.mem_append] at ha'
              rcases ha' with ha' | ha' | ha'
              · subst ha'; rfl
              · exact hfs a ha'
              · exact (hm a ha').1
        · intro ch' cfg' hch' _ _
          have hch : ch' = ch := (Option.some.inj hch').symm
          subst hch
          cases hr : (fetchThreadContent w ch' ch'.ParentID).result with
          | fault => exact ⟨rest, by simp [hrest]⟩
          | err e => exact ⟨rest, by simp [hrest]⟩
          | ok threadContent =>
            by_cases hl : threadContent.length = 0
            · exact ⟨rest, by simp [hl, hrest]⟩
            · refine ⟨rest ++ (makeReplyMessage w m.ChannelID channelConfig threadContent).actions,
                ?_⟩
              simp only [hl, if_false]
              cases hmr : (makeReplyMessage w m.ChannelID channelConfig threadContent).result
                <;> simp [hrest]
        · intro hno
          exact absurd ⟨ch, channelConfig, rfl, hthread, hcfg⟩ hno

/-- C9: the routing of `onMessageCreate`.  `FindChannelConfig` finds the first configured record
whose chat-channel-id is the channel of the event.  An event authored by the bot itself or not of
default type leads to no call at all.  Otherwise a thread is started (the new-thread path, which
is `processMessage` with the profile found) exactly when the channel of the event has a profile;
otherwise the history of a thread is fetched (the continuation path, which is
`checkAndReplyToThread`) exactly when the channel of the event is a thread whose parent channel
has a profile; in every remaining case nothing is done beyond the lookup of the channel of the
event that this decision needs. -/
theorem C9_routing (w : World) (m : Message) :
    w.config.FindChannelConfig m.ChannelID
        = w.config.ApiChannelConfig.find?
            (fun apiConfig => decide (apiConfig.ChatChannelId = m.ChannelID))
      ∧ (m.Author.ID = w.botID ∨ m.Type_ ≠ MessageTypeDefault →
          onMessageCreate w m = ⟨[], Outcome.ok ()⟩)
      ∧ ((∃ a ∈ (onMessageCreate w m).actions, a.isThreadStart = true) ↔
          ¬ (m.Author.ID = w.botID ∨ m.Type_ ≠ MessageTypeDefault)
            ∧ ∃ channelConfig, w.config.FindChannelConfig m.ChannelID = some channelConfig)
      ∧ (∀ channelConfig, ¬ (m.Author.ID = w.botID ∨ m.Type_ ≠ MessageTypeDefault) →
          w.config.FindChannelConfig m.ChannelID = some channelConfig →
          onMessageCreate w m = processMessage w m channelConfig)
      ∧ ((∃ a ∈ (onMessageCreate w m).actions, a.isChannelMessages = true) ↔
          ¬ (m.Author.ID = w.botID ∨ m.Type_ ≠ MessageTypeDefault)
            ∧ w.config.FindChannelConfig m.ChannelID = none
            ∧ ∃ ch channelConfig, w.Channel m.ChannelID = some ch ∧ ch.IsThread = true
              ∧ w.config.FindChannelConfig ch.ParentID = some channelConfig)
      ∧ (¬ (m.Author.ID = w.botID ∨ m.Type_ ≠ MessageTypeDefault) →
          w.config.FindChannelConfig m.ChannelID = none →
          onMessageCreate w m = checkAndReplyToThread w m)
      ∧ (¬ (m.Author.ID = w.botID ∨ m.Type_ ≠ MessageTypeDefault) →
          w.config.FindChannelConfig m.ChannelID = none →
          (¬ ∃ ch channelConfig, w.Channel m.ChannelID = some ch ∧ ch.IsThread = true
              ∧ w.config.FindChannelConfig ch.ParentID = some channelConfig) →
          onMessageCreate w m = ⟨[Action.Channel m.ChannelID], Outcome.ok ()⟩) := by
  refine ⟨FindChannelConfig_eq_find _ _, ?_⟩
  unfold onMessageCreate
  by_cases hig : m.Author.ID = w.botID ∨ m.Type_ ≠ MessageTypeDefault
  · simp only [hig, if_true]
    simp
  · simp only [hig, if_false]
    cases hfind : w.config.FindChannelConfig m.ChannelID with
    | some channelConfig =>
      obtain ⟨rest, hacts, hrest⟩ := processMessage_calls w m channelConfig
      refine ⟨fun h => absurd h (by simp), ?_, ?_, ?_, fun _ h => absurd h (by simp),
        fun _ h => absurd h (by simp)⟩
      · simp only [hacts]
        exact ⟨fun _ => ⟨not_false, channelConfig, rfl⟩,
          fun _ => ⟨_, List.mem_cons_self _ _, rfl⟩⟩
      · intro cfg _ hcfg
        rw [← Option.some.inj hcfg]
      · simp only [hacts]
        constructor
        · rintro ⟨a, ha, hfetch⟩
          rcases List.mem_cons.mp ha with ha | ha
          · subst ha
            exact absurd hfetch (by simp [Action.isChannelMessages])
          · rw [(hrest a ha).2] at hfetch
            exact absurd hfetch (by decide)
        · rintro ⟨_, h, _⟩
          exact absurd h (by simp)
    | none =>
      obtain ⟨hstart, hcont, hnone⟩ := checkAndReplyToThread_calls w m
      refine ⟨fun h => absurd h (by simp), ?_, fun cfg _ h => absurd h (by simp), ?_,
        fun _ _ => rfl, fun _ _ hno => hnone hno⟩
      · constructor
        · rintro ⟨a, ha, hs⟩
          rw [hstart a ha] at hs
          exact absurd hs (by decide)
        · rintro ⟨_, cfg, h⟩
          exact absurd h (by simp)
      · constructor
        · rintro ⟨a, ha, hfetch⟩
          refine ⟨not_false, rfl, ?_⟩
          by_contra hno
          rw [hnone hno] at ha
          simp only [List.mem_singleton] at ha
          subst ha
          exact absurd hfetch (by simp [Action.isChannelMessages])
        · rintro ⟨_, _, ch, cfg, hch, hthread, hcfg⟩
          obtain ⟨rest, hrest⟩ := hcont ch cfg hch hthread hcfg
          exact ⟨Action.ChannelMessages ch.ID 100 [], by simp [hrest], rfl⟩

/-- C9, on three events: an answer of the bot itself leads to no call; `Hello` in the configured
channel `100` is handled by `processMessage` with the profile of that channel; `Hello` in the
unknown channel `300` leads to the lookup of that channel and nothing else. -/
theorem C9_routing_witness :
    ((botMessage "21" "200" "Hi there!").Author.ID = (sampleWorld none none none).botID
        ∧ onMessageCreate (sampleWorld none none none) (botMessage "21" "200" "Hi there!")
          = ⟨[], Outcome.ok ()⟩)
      ∧ ((sampleWorld none none none).config.FindChannelConfig
            (userMessage "11" "100" "Hello" none).ChannelID = some sampleChannelConfig
        ∧ onMessageCreate (sampleWorld none none none) (userMessage "11" "100" "Hello" none)
          = processMessage (sampleWorld none none none) (userMessage "11" "100" "Hello" none)
              sampleChannelConfig)
      ∧ ((sampleWorld none none none).Channel (userMessage "5" "300" "Hello" none).ChannelID
            = none
        ∧ onMessageCreate (sampleWorld none none none) (userMessage "5" "300" "Hello" none)
          = ⟨[Action.Channel (lit "300")], Outcome.ok ()⟩) :=
  ⟨⟨by decide,
      (C9_routing (sampleWorld none none none) (botMessage "21" "200" "Hi there!")).2.1
        (Or.inl (by decide))⟩,
    ⟨by decide,
      (C9_routing (sampleWorld none none none) (userMessage "11" "100" "Hello" none)).2.2.2.1
        sampleChannelConfig (by decide) (by decide)⟩,
    ⟨by decide,
      (C9_routing (sampleWorld none none none) (userMessage "5" "300" "Hello" none)).2.2.2.2.2.2
        (by decide) (by decide)
        (by
          rintro ⟨ch, _, hch, _⟩
          have h2 : (sampleWorld none none none).Channel
              (userMessage "5" "300" "Hello" none).ChannelID = none := by decide
          rw [h2] at hch
          exact absurd hch (by simp))⟩⟩

end PersonalLLM
